import Mathlib

/-!
# pkgcloud: Azure Tables database client and Rackspace volume-type client

A shallow embedding of `lib/pkgcloud/azure/database/client/tables.js` and
`lib/pkgcloud/rackspace/blockstorage/client/volumetypes.js`.

JavaScript strings are sequences of UTF-16 code units (`JSString`).  Each
exported method is embedded as a function from its argument list and the
behaviour of its collaborators (transport, template loader, XML parser) to the
trace of observable events it produces: requests issued, templates loaded,
callback invocations and uncaught exceptions.
-/

namespace Pkgcloud

/-! ## Strings -/

/-- A JavaScript string: its UTF-16 code units. -/
abbrev JSString := List Nat

/-- UTF-16 code units of one Unicode scalar value. -/
def utf16Char (c : Char) : JSString :=
  if c.toNat < 0x10000 then [c.toNat]
  else [0xD800 + (c.toNat - 0x10000) / 0x400, 0xDC00 + (c.toNat - 0x10000) % 0x400]

/-- UTF-16 code units of a list of scalar values. -/
def utf16Chars : List Char → JSString
  | [] => []
  | c :: cs => utf16Char c ++ utf16Chars cs

/-- The JavaScript string denoted by a source literal. -/
def utf16 (s : String) : JSString := utf16Chars s.toList

def isHighSurrogate (c : Nat) : Bool := 0xD800 ≤ c && c ≤ 0xDBFF

def isLowSurrogate (c : Nat) : Bool := 0xDC00 ≤ c && c ≤ 0xDFFF

/-- The characters `encodeURIComponent` leaves alone: ASCII letters, digits and
the marks `- _ . ! ~ * ' ( )`. -/
def isUnescaped (c : Nat) : Bool :=
  (0x41 ≤ c && c ≤ 0x5A) || (0x61 ≤ c && c ≤ 0x7A) || (0x30 ≤ c && c ≤ 0x39) ||
  c == 0x2D || c == 0x5F || c == 0x2E || c == 0x21 || c == 0x7E ||
  c == 0x2A || c == 0x27 || c == 0x28 || c == 0x29

/-- Upper-case hexadecimal digit. -/
def hexDigit (n : Nat) : Nat := if n < 10 then 0x30 + n else 0x41 + (n - 10)

/-- One octet as `%XX`. -/
def percentOctet (b : Nat) : JSString := [0x25, hexDigit (b / 16), hexDigit (b % 16)]

def percentOctets : List Nat → JSString
  | [] => []
  | b :: bs => percentOctet b ++ percentOctets bs

/-- UTF-8 octets of a code point. -/
def utf8Octets (cp : Nat) : List Nat :=
  if cp < 0x80 then [cp]
  else if cp < 0x800 then [0xC0 + cp / 0x40, 0x80 + cp % 0x40]
  else if cp < 0x10000 then [0xE0 + cp / 0x1000, 0x80 + cp / 0x40 % 0x40, 0x80 + cp % 0x40]
  else [0xF0 + cp / 0x40000, 0x80 + cp / 0x1000 % 0x40, 0x80 + cp / 0x40 % 0x40,
        0x80 + cp % 0x40]

/-- Code point of a surrogate pair. -/
def surrogatePair (hi lo : Nat) : Nat := (hi - 0xD800) * 0x400 + (lo - 0xDC00) + 0x10000

/-- The built-in `encodeURIComponent`: `none` stands for the `URIError` raised on
an unpaired surrogate. -/
def encodeURIComponent : JSString → Option JSString
  | [] => some []
  | [c] =>
    if isUnescaped c then some [c]
    else if isLowSurrogate c || isHighSurrogate c then none
    else some (percentOctets (utf8Octets c))
  | c :: d :: rest =>
    if isUnescaped c then (encodeURIComponent (d :: rest)).map (fun r => c :: r)
    else if isLowSurrogate c then none
    else if isHighSurrogate c then
      if isLowSurrogate d then
        (encodeURIComponent rest).map
          (fun r => percentOctets (utf8Octets (surrogatePair c d)) ++ r)
      else none
    else (encodeURIComponent (d :: rest)).map (fun r => percentOctets (utf8Octets c) ++ r)

/-- The method `String.prototype.replace` with a global single-character
pattern: every occurrence of `c` becomes `r`. -/
def replaceAll (c : Nat) (r : JSString) : JSString → JSString
  | [] => []
  | x :: xs => (if x = c then r else [x]) ++ replaceAll c r xs

/-- The five successive `replace` calls of `encodeTableUriComponent`, innermost
first. -/
def extraEscapes (e : JSString) : JSString :=
  replaceAll 0x2A (utf16 "%2A")
    (replaceAll 0x29 (utf16 "%29")
      (replaceAll 0x28 (utf16 "%28")
        (replaceAll 0x27 (utf16 "%27")
          (replaceAll 0x21 (utf16 "%21") e))))

/-- `encodeTableUriComponent` of tables.js: `none` when `encodeURIComponent`
raises. -/
def encodeTableUriComponent (uri : JSString) : Option JSString :=
  (encodeURIComponent uri).map extraEscapes

/-- The encoding rule in the words of the specification: what one character of
the standard encoding becomes. -/
def azureEscapeChar (c : Nat) : JSString :=
  if c = 0x21 then utf16 "%21"
  else if c = 0x27 then utf16 "%27"
  else if c = 0x28 then utf16 "%28"
  else if c = 0x29 then utf16 "%29"
  else if c = 0x2A then utf16 "%2A"
  else [c]

/-- The encoding rule in the words of the specification, applied to a whole
standard encoding. -/
def azureEscape : JSString → JSString
  | [] => []
  | c :: cs => azureEscapeChar c ++ azureEscape cs

/-- Length of the UTF-8 encoding of a string (what `Buffer.byteLength` returns):
a surrogate pair takes four octets, an unpaired surrogate is written as U+FFFD. -/
def utf8ByteLength : JSString → Nat
  | [] => 0
  | [c] => if isHighSurrogate c || isLowSurrogate c then 3 else (utf8Octets c).length
  | c :: d :: rest =>
    if isHighSurrogate c && isLowSurrogate d then 4 + utf8ByteLength rest
    else if isHighSurrogate c || isLowSurrogate c then 3 + utf8ByteLength (d :: rest)
    else (utf8Octets c).length + utf8ByteLength (d :: rest)

/-! ## Values -/

/-- JavaScript data values.  A number is represented by its canonical decimal
rendering (`Number.prototype.toString`), so `0` and `-0` are both `"0"`.
Objects are plain objects with own data properties. -/
inductive JSValue where
  | undefined
  | null
  | bool (b : Bool)
  | number (repr : JSString)
  | string (s : JSString)
  | object (fields : List (String × JSValue))
  | array (items : List JSValue)
  | error (message : JSString)
  | volumeType (details : JSValue)

/-- An argument of a call: a data value or a function (identified by a tag). -/
inductive Arg where
  | value (v : JSValue)
  | function (tag : Nat)

/-- Exceptions raised by the language itself. -/
inductive Thrown where
  | typeError
  | uriError
  deriving DecidableEq

/-- Truthiness (`ToBoolean`). -/
def truthy : JSValue → Bool
  | .undefined => false
  | .null => false
  | .bool b => b
  | .number r => !(r == utf16 "0" || r == utf16 "NaN")
  | .string s => !s.isEmpty
  | _ => true

mutual
/-- String conversion as performed by `+` with a string operand. -/
def jsToString : JSValue → JSString
  | .undefined => utf16 "undefined"
  | .null => utf16 "null"
  | .bool b => if b then utf16 "true" else utf16 "false"
  | .number r => r
  | .string s => s
  | .object _ => utf16 "[object Object]"
  | .array items => joinItems items
  | .error m => if m.isEmpty then utf16 "Error" else utf16 "Error: " ++ m
  | .volumeType _ => utf16 "[object Object]"
/-- The method `Array.prototype.join` with the default separator. -/
def joinItems : List JSValue → JSString
  | [] => []
  | x :: xs => joinElem x ++ joinRest xs
def joinRest : List JSValue → JSString
  | [] => []
  | x :: xs => 0x2C :: (joinElem x ++ joinRest xs)
def joinElem : JSValue → JSString
  | .undefined => []
  | .null => []
  | .bool b => if b then utf16 "true" else utf16 "false"
  | .number r => r
  | .string s => s
  | .object _ => utf16 "[object Object]"
  | .array items => joinItems items
  | .error m => if m.isEmpty then utf16 "Error" else utf16 "Error: " ++ m
  | .volumeType _ => utf16 "[object Object]"
end

/-- Own property of a plain object, `undefined` when absent. -/
def field (key : String) : List (String × JSValue) → JSValue
  | [] => .undefined
  | (k, v) :: rest => if k = key then v else field key rest

/-- Modelled from the spec: the properties of a VolumeType record (the class
`../volumetype` is not part of the sources), a pass-through of the raw details
the record was built from; it is identified by the `id` of those details. -/
def volumeTypeField (key : String) : JSValue → JSValue
  | .object fields => field key fields
  | _ => .undefined

/-- Property read `v[key]` for the property names the clients read (`content`,
`m:properties`, `d:TableName`, `id`, `entry`, `name`, `statusCode`,
`volume_types`, `volume_type`): a `TypeError` on `undefined` and `null`,
`undefined` on primitives and arrays, which have none of these. -/
def getProp (v : JSValue) (key : String) : Except Thrown JSValue :=
  match v with
  | .undefined => .error .typeError
  | .null => .error .typeError
  | .object fields => .ok (field key fields)
  | .error m =>
    .ok (if key = "message" then .string m else if key = "name" then .string (utf16 "Error")
      else .undefined)
  | .volumeType details => .ok (volumeTypeField key details)
  | _ => .ok .undefined

/-! ## Requests, collaborators and events -/

/-- The `path` of a request: an array of segments or a plain string. -/
inductive Path where
  | segments (l : List JSString)
  | plain (s : JSString)

/-- What a client hands to the transport. -/
structure Request where
  method : Option String
  path : Path
  body : Option JSString
  headers : List (String × Nat)

/-- What the Azure transport does with a request: it invokes the error
continuation with an error, or the success continuation with a body and a
response. -/
inductive Outcome where
  | failure (err : JSValue)
  | success (body : JSValue) (res : JSValue)

/-- Observable events of a call. -/
inductive Event where
  | request (r : Request)
  | loadTemplate (path : String)
  | call (fn : Nat) (args : List JSValue)
  | emit (err : JSValue)
  | throw (e : Thrown)

/-- An Azure Tables client: its configuration and its collaborators. -/
structure AzureClient where
  storageAccount : JSValue
  serversUrl : JSValue
  now : JSString
  loadTemplate : String → JSValue × JSValue
  request : Request → Outcome
  xmlRequest : Request → Outcome
  xml2JSON : JSValue → JSValue × JSValue

/-- A Rackspace block-storage client: its transport answers a request with the
arguments `(err, body, res)` of the continuation. -/
structure RackspaceClient where
  request : Request → JSValue × JSValue × JSValue

/-- Positional parameter `i` of a call, `undefined` when not passed. -/
def argAt (args : List Arg) (i : Nat) : Arg := (args.get? i).getD (.value .undefined)

/-- The expression `Array.prototype.slice.call(arguments).pop()`. -/
def lastArg (args : List Arg) : Arg := args.getLast?.getD (.value .undefined)

/-- The test `!x || typeof x === 'function'`. -/
def missingOrFunction : Arg → Bool
  | .function _ => true
  | .value v => !truthy v

/-- Calling `cb(args...)`: a `TypeError` when `cb` is not a function. -/
def invoke (cb : Arg) (args : List JSValue) : List Event :=
  match cb with
  | .function tag => [.call tag args]
  | .value _ => [.throw .typeError]

/-- The library call `errs.handle(errs.create(...), cb)` for an error with the
given message: the error goes to `cb` when it is a function; otherwise the
error is emitted on the next tick, on `cb` itself when it is truthy (a data
value has no `emit` method: `TypeError`) and on a fresh emitter when it is
falsy. -/
def errsHandle (message : String) (cb : Arg) : List Event :=
  match cb with
  | .function tag => [.call tag [.error (utf16 message)]]
  | .value v => if truthy v then [.throw .typeError] else [.emit (.error (utf16 message))]

/-- Modelled from the spec: the template collaborator (`utils/templates` with
underscore's `_.template`), which performs mustache-style textual substitution
of the parameters `name` and `date`, each written between doubled braces.  The
first argument counts the characters of a placeholder still to be skipped. -/
def renderFrom (name date : JSString) : Nat → JSString → JSString
  | _, [] => []
  | skip + 1, _ :: rest => renderFrom name date skip rest
  | 0, c :: rest =>
    if (utf16 "\x7b\x7bname\x7d\x7d").isPrefixOf (c :: rest) then name ++ renderFrom name date 7 rest
    else if (utf16 "\x7b\x7bdate\x7d\x7d").isPrefixOf (c :: rest) then date ++ renderFrom name date 7 rest
    else c :: renderFrom name date 0 rest

/-- Modelled from the spec: `_.template(template, params)` with
the parameters `name` and `date`; a template that is not a string has no
`replace` method. -/
def template (tpl : JSValue) (name : JSValue) (date : JSString) : Except Thrown JSString :=
  match tpl with
  | .string t => .ok (renderFrom (jsToString name) date 0 t)
  | _ => .error .typeError

/-! ## Azure Tables client (tables.js) -/

/-- `exports.url`. -/
def url (self : AzureClient) (args : List JSValue) : JSString :=
  let u := utf16 "http://" ++ jsToString self.storageAccount ++ utf16 "." ++
    jsToString self.serversUrl ++ utf16 "/"
  let a0 := (args.get? 0).getD .undefined
  let a1 := (args.get? 1).getD .undefined
  let u := if truthy a0 then u ++ jsToString a0 else u
  if truthy a1 then u ++ jsToString a1 else u

/-- `exports.formatResponse`. -/
def formatResponse (self : AzureClient) (response : JSValue) : Except Thrown JSValue := do
  let content ← getProp response "content"
  let properties ← getProp content "m:properties"
  let tableName ← getProp properties "d:TableName"
  let host := url self []
  let uri ← getProp response "id"
  pure (.object [("id", tableName), ("host", .string host), ("uri", uri),
    ("username", .string []), ("password", .string [])])

/-- The final continuation of the waterfall in `create`. -/
def createDone (self : AzureClient) (callback : Arg) (err result : JSValue) : List Event :=
  if truthy err then invoke callback [err]
  else
    match formatResponse self result with
    | .ok database => invoke callback [.null, database]
    | .error e => [.throw e]

/-- `exports.create`. -/
def create (self : AzureClient) (args : List Arg) : List Event :=
  let callback := argAt args 1
  match argAt args 0 with
  | .function _ => errsHandle "Options required to create a database." (lastArg args)
  | .value options =>
    if !truthy options then
      errsHandle "Options required to create a database." (lastArg args)
    else
      match getProp options "name" with
      | .error e => [.throw e]
      | .ok name =>
        if !truthy name then errsHandle "options.name is a required option" (lastArg args)
        else
          let date := self.now
          .loadTemplate "templates/createTable.xml" ::
            (let loaded := self.loadTemplate "templates/createTable.xml"
             if truthy loaded.1 then createDone self callback loaded.1 .undefined
             else
               match template loaded.2 name date with
               | .error e => [.throw e]
               | .ok body =>
                 let req : Request :=
                   { method := some "POST", path := .segments [utf16 "Tables"],
                     body := some body, headers := [("content-length", body.length)] }
                 .request req ::
                   (match self.request req with
                    | .failure err => createDone self callback err .undefined
                    | .success raw _ =>
                      let parsed := self.xml2JSON raw
                      if truthy parsed.1 then createDone self callback parsed.1 .undefined
                      else createDone self callback .null parsed.2))

/-- The loop `body.entry.forEach(...)` of `list`: the records formatted so far,
or the exception of the first entry that cannot be formatted. -/
def formatAll (self : AzureClient) : List JSValue → Except Thrown (List JSValue)
  | [] => .ok []
  | table :: rest =>
    match formatResponse self table with
    | .error e => .error e
    | .ok database =>
      match formatAll self rest with
      | .error e => .error e
      | .ok databases => .ok (database :: databases)

/-- The success continuation of `list`: the array `tables` it builds. -/
def listTables (self : AzureClient) (body : JSValue) : Except Thrown (List JSValue) :=
  if truthy body then
    match getProp body "entry" with
    | .error e => .error e
    | .ok entry =>
      if truthy entry then
        match entry with
        | .array entries => formatAll self entries
        | _ => (formatResponse self entry).map (fun database => [database])
      else .ok []
  else .ok []

/-- `exports.list`. -/
def list (self : AzureClient) (callback : Arg) : List Event :=
  let req : Request :=
    { method := some "GET", path := .segments [utf16 "Tables"], body := none, headers := [] }
  .request req ::
    (match self.xmlRequest req with
     | .failure err => invoke callback [err]
     | .success body _ =>
       match listTables self body with
       | .error e => [.throw e]
       | .ok tables => invoke callback [.null, .array tables])

/-- The comparison `v === 204`. -/
def is204 : JSValue → Bool
  | .number r => r == utf16 "204"
  | _ => false

/-- The operand `"Tables('" + id + "')"` of `remove`. -/
def tablePath (id : JSValue) : JSString := utf16 "Tables('" ++ jsToString id ++ utf16 "')"

/-- `exports.remove`. -/
def remove (self : AzureClient) (args : List Arg) : List Event :=
  let callback := argAt args 1
  match argAt args 0 with
  | .function _ => errsHandle "id is a required argument" (lastArg args)
  | .value id =>
    if !truthy id then errsHandle "id is a required argument" (lastArg args)
    else
      match encodeTableUriComponent (tablePath id) with
      | none => [.throw .uriError]
      | some path =>
        let req : Request :=
          { method := some "DELETE", path := .segments [path], body := none, headers := [] }
        .request req ::
          (match self.xmlRequest req with
           | .failure err => invoke callback [err]
           | .success _ res =>
             match getProp res "statusCode" with
             | .error e => [.throw e]
             | .ok status => invoke callback [.null, .bool (is204 status)])

/-! ## Rackspace volume types (volumetypes.js) -/

/-- Modelled from the spec: the constructor `new VolumeType(client, details)` of
`../volumetype`, an opaque record wrapping the raw details it is built from. -/
def newVolumeType (details : JSValue) : JSValue := .volumeType details

/-- The test `v instanceof VolumeType`. -/
def instanceofVolumeType : JSValue → Bool
  | .volumeType _ => true
  | _ => false

/-- `exports.getVolumeTypes`. -/
def getVolumeTypes (self : RackspaceClient) (callback : Arg) : List Event :=
  let req : Request :=
    { method := none, path := .plain (utf16 "types"), body := none, headers := [] }
  .request req ::
    (let answer := self.request req
     if truthy answer.1 then invoke callback [answer.1]
     else
       match getProp answer.2.1 "volume_types" with
       | .error e => [.throw e]
       | .ok (.array items) =>
         invoke callback [.null, .array (items.map newVolumeType), answer.2.2]
       | .ok _ => [.throw .typeError])

/-- `exports.getVolumeType`. -/
def getVolumeType (self : RackspaceClient) (volumetype : JSValue) (callback : Arg) :
    List Event :=
  match (if instanceofVolumeType volumetype then getProp volumetype "id" else .ok volumetype) with
  | .error e => [.throw e]
  | .ok volumeTypeId =>
    let req : Request :=
      { method := none, path := .plain (utf16 "types/" ++ jsToString volumeTypeId),
        body := none, headers := [] }
    .request req ::
      (let answer := self.request req
       if truthy answer.1 then invoke callback [answer.1]
       else
         match getProp answer.2.1 "volume_type" with
         | .error e => [.throw e]
         | .ok details => invoke callback [.null, newVolumeType details])

/-! ## Reading traces -/

/-- The requests of a trace, in order. -/
def requests : List Event → List Request
  | [] => []
  | .request r :: rest => r :: requests rest
  | _ :: rest => requests rest

/-- The argument lists with which function `fn` is called in a trace. -/
def callsTo (fn : Nat) : List Event → List (List JSValue)
  | [] => []
  | .call g args :: rest => if g = fn then args :: callsTo fn rest else callsTo fn rest
  | _ :: rest => callsTo fn rest

/-- The templates loaded in a trace. -/
def templateLoads : List Event → List String
  | [] => []
  | .loadTemplate p :: rest => p :: templateLoads rest
  | _ :: rest => templateLoads rest

/-! ## Predicates used to state the claims -/

/-- An absent or empty `name`. -/
def nameAbsent : JSValue → Bool
  | .undefined => true
  | .string [] => true
  | _ => false

/-- Options that `create` has to reject, in the words of the specification:
missing, not an object, or an object without a non-empty `name`. -/
def optionsUnusable : Arg → Bool
  | .function _ => true
  | .value .undefined => true
  | .value .null => true
  | .value (.bool _) => true
  | .value (.number _) => true
  | .value (.string _) => true
  | .value (.object fields) => nameAbsent (field "name" fields)
  | .value (.array _) => true
  | .value (.error _) => false
  | .value (.volumeType details) => nameAbsent (volumeTypeField "name" details)

/-- A value whose properties can be read: neither `undefined` nor `null`. -/
def readable : JSValue → Bool
  | .undefined => false
  | .null => false
  | _ => true

/-- A parsed entry whose table name can be read: the entry, its `content` and
the `m:properties` of the content are neither `undefined` nor `null`. -/
def hasTableProperties (response : JSValue) : Bool :=
  match getProp response "content" with
  | .error _ => false
  | .ok content =>
    match getProp content "m:properties" with
    | .error _ => false
    | .ok properties => readable properties

/-- The entries of a listing that `list` hands to `formatResponse`: those of an
array `entry`, a single truthy `entry` itself, none when the body or the entry
is falsy. -/
def entriesRead (body : JSValue) : List JSValue :=
  if truthy body then
    match getProp body "entry" with
    | .ok (.array entries) => entries
    | .ok entry => if truthy entry then [entry] else []
    | .error _ => []
  else []

/-- A trace without any call of `cb` that ends in the exception `t`. -/
def raisesUncalled (cb : Nat) (t : Thrown) (trace : List Event) : Prop :=
  callsTo cb trace = [] ∧ trace.getLast? = some (.throw t)

/-- The request `remove` issues for an encoded path. -/
def deleteRequest (path : JSString) : Request :=
  { method := some "DELETE", path := .segments [path], body := none, headers := [] }

/-- The callback `cb` is called exactly once in a trace: with an error alone, or
with `null` followed by a result. -/
def calledOnce (cb : Nat) (trace : List Event) : Prop :=
  ∃ args, callsTo cb trace = [args] ∧
    ((∃ err, args = [err]) ∨ (∃ result rest, args = .null :: result :: rest))

/-- The request `create` issues for a rendered body. -/
def createRequest (body : JSString) : Request :=
  { method := some "POST", path := .segments [utf16 "Tables"], body := some body,
    headers := [("content-length", body.length)] }

/-- The request `list` issues. -/
def listRequest : Request :=
  { method := some "GET", path := .segments [utf16 "Tables"], body := none, headers := [] }

/-- The request `getVolumeTypes` issues. -/
def typesRequest : Request :=
  { method := none, path := .plain (utf16 "types"), body := none, headers := [] }

/-- The request `getVolumeType` issues for an identifier. -/
def typeRequest (id : JSValue) : Request :=
  { method := none, path := .plain (utf16 "types/" ++ jsToString id), body := none,
    headers := [] }

/-! ## Sample collaborators for concrete runs -/

/-- A template with one placeholder for the table name. -/
def nameTemplate : JSValue := .string (utf16 "<d:TableName>\x7b\x7bname\x7d\x7d</d:TableName>")

/-- An Azure client whose template loads, whose transport answers every request
with status 204 and a parsed entry for table `t1`. -/
def sampleAzure : AzureClient :=
  { storageAccount := .string (utf16 "acct")
    serversUrl := .string (utf16 "table.core.windows.net")
    now := utf16 "2013-01-01T00:00:00.000Z"
    loadTemplate := fun _ => (.null, nameTemplate)
    request := fun _ => .success (.string (utf16 "<entry/>"))
      (.object [("statusCode", .number (utf16 "201"))])
    xmlRequest := fun _ => .success .undefined (.object [("statusCode", .number (utf16 "204"))])
    xml2JSON := fun _ => (.null, .object [("id", .string (utf16 "http://acct/Tables('t1')")),
      ("content", .object [("m:properties", .object [("d:TableName", .string (utf16 "t1"))])])]) }

/-- A parsed table entry. -/
def tableEntry (name : String) : JSValue :=
  .object [("id", .string (utf16 "http://acct/Tables('" ++ utf16 name ++ utf16 "')")),
    ("content", .object [("m:properties", .object [("d:TableName", .string (utf16 name))])])]

/-- The record `formatResponse` builds for `tableEntry name` on `sampleAzure`. -/
def tableRecord (name : String) : JSValue :=
  .object [("id", .string (utf16 name)),
    ("host", .string (utf16 "http://acct.table.core.windows.net/")),
    ("uri", .string (utf16 "http://acct/Tables('" ++ utf16 name ++ utf16 "')")),
    ("username", .string []), ("password", .string [])]

/-- As `sampleAzure`, with a service that lists the tables `t1` and `t2`. -/
def twoTablesAzure : AzureClient :=
  { sampleAzure with
    xmlRequest := fun _ =>
      .success (.object [("entry", .array [tableEntry "t1", tableEntry "t2"])])
        (.object [("statusCode", .number (utf16 "200"))]) }

/-- As `sampleAzure`, with a service whose single entry has no `content`. -/
def bareEntryAzure : AzureClient :=
  { sampleAzure with
    xmlRequest := fun _ =>
      .success (.object [("entry", .object [])])
        (.object [("statusCode", .number (utf16 "200"))]) }

/-- A Rackspace client whose transport answers with two volume types. -/
def sampleRackspace : RackspaceClient :=
  { request := fun _ =>
      (.null,
       .object [("volume_types", .array [.object [("id", .number (utf16 "1"))],
                  .object [("id", .number (utf16 "2"))]]),
                ("volume_type", .object [("id", .number (utf16 "1"))])],
       .object [("statusCode", .number (utf16 "200"))]) }

/-- A Rackspace client whose transport answers with an empty JSON object. -/
def emptyBodyRackspace : RackspaceClient :=
  { request := fun _ => (.null, .object [], .object [("statusCode", .number (utf16 "200"))]) }

/-! ## Lemmas on the URI encoding -/

theorem replaceAll_append (c : Nat) (r a b : JSString) :
    replaceAll c r (a ++ b) = replaceAll c r a ++ replaceAll c r b := by
  induction a with
  | nil => rfl
  | cons x xs ih => simp [replaceAll, ih]

theorem utf16_pct21 : utf16 "%21" = [0x25, 0x32, 0x31] := by rfl
theorem utf16_pct27 : utf16 "%27" = [0x25, 0x32, 0x37] := by rfl
theorem utf16_pct28 : utf16 "%28" = [0x25, 0x32, 0x38] := by rfl
theorem utf16_pct29 : utf16 "%29" = [0x25, 0x32, 0x39] := by rfl
theorem utf16_pct2A : utf16 "%2A" = [0x25, 0x32, 0x41] := by rfl

theorem extraEscapes_cons (x : Nat) (xs : JSString) :
    extraEscapes (x :: xs) = azureEscapeChar x ++ extraEscapes xs := by
  unfold extraEscapes azureEscapeChar
  simp only [utf16_pct21, utf16_pct27, utf16_pct28, utf16_pct29, utf16_pct2A]
  by_cases h1 : x = 0x21
  · subst h1; simp [replaceAll, replaceAll_append]
  by_cases h2 : x = 0x27
  · subst h2; simp [replaceAll, replaceAll_append]
  by_cases h3 : x = 0x28
  · subst h3; simp [replaceAll, replaceAll_append]
  by_cases h4 : x = 0x29
  · subst h4; simp [replaceAll, replaceAll_append]
  by_cases h5 : x = 0x2A
  · subst h5; simp [replaceAll, replaceAll_append]
  simp [replaceAll, replaceAll_append, h1, h2, h3, h4, h5]

theorem extraEscapes_eq_azureEscape (e : JSString) : extraEscapes e = azureEscape e := by
  induction e with
  | nil => rfl
  | cons x xs ih => rw [extraEscapes_cons, ih]; rfl

theorem azureEscapeChar_clean (x c : Nat) (h : c ∈ azureEscapeChar x) :
    c ≠ 0x21 ∧ c ≠ 0x27 ∧ c ≠ 0x28 ∧ c ≠ 0x29 ∧ c ≠ 0x2A := by
  unfold azureEscapeChar at h
  simp only [utf16_pct21, utf16_pct27, utf16_pct28, utf16_pct29, utf16_pct2A] at h
  split_ifs at h <;> simp at h <;> omega

theorem azureEscape_clean (e : JSString) (c : Nat) (h : c ∈ azureEscape e) :
    c ≠ 0x21 ∧ c ≠ 0x27 ∧ c ≠ 0x28 ∧ c ≠ 0x29 ∧ c ≠ 0x2A := by
  induction e with
  | nil => simp [azureEscape] at h
  | cons x xs ih =>
    simp only [azureEscape, List.mem_append] at h
    rcases h with h | h
    · exact azureEscapeChar_clean x c h
    · exact ih h

theorem encodeURIComponent_multibyte :
    encodeURIComponent (utf16 "é €𝄞") = some (utf16 "%C3%A9%20%E2%82%AC%F0%9D%84%9E") := by
  rfl

theorem encodeURIComponent_unpaired : encodeURIComponent [0xD800] = none := by rfl

theorem jsToString_nested_array :
    jsToString (.array [.number (utf16 "1"), .null, .array [.string (utf16 "a"), .bool true]])
      = utf16 "1,,a,true" := by
  rfl

/-! ## Claims -/

/-- C1: whenever standard percent-encoding accepts `s` and yields `e`,
`encodeTableUriComponent s` is `e` with each of the characters `! ' ( ) *`
replaced by `%21 %27 %28 %29 %2A` and every other character kept, so none of
those five characters remains; the table path of `a!b` encodes as stated. -/
theorem encodeTableUriComponent_spec :
    (∀ s e : JSString, encodeURIComponent s = some e →
      encodeTableUriComponent s = some (azureEscape e) ∧
      (∀ c ∈ azureEscape e, c ≠ 0x21 ∧ c ≠ 0x27 ∧ c ≠ 0x28 ∧ c ≠ 0x29 ∧ c ≠ 0x2A)) ∧
    (∀ c : Nat, c ≠ 0x21 → c ≠ 0x27 → c ≠ 0x28 → c ≠ 0x29 → c ≠ 0x2A →
      azureEscapeChar c = [c]) ∧
    azureEscapeChar 0x21 = utf16 "%21" ∧ azureEscapeChar 0x27 = utf16 "%27" ∧
    azureEscapeChar 0x28 = utf16 "%28" ∧ azureEscapeChar 0x29 = utf16 "%29" ∧
    azureEscapeChar 0x2A = utf16 "%2A" ∧
    encodeTableUriComponent (utf16 "Tables('a!b')") =
      some (utf16 "Tables%28%27a%21b%27%29") := by
  refine ⟨?_, ?_, rfl, rfl, rfl, rfl, rfl, rfl⟩
  · intro s e h
    refine ⟨?_, fun c hc => azureEscape_clean e c hc⟩
    have h2 : encodeTableUriComponent s = some (extraEscapes e) := by
      simp [encodeTableUriComponent, h]
    rw [h2, extraEscapes_eq_azureEscape]
  · intro c h1 h2 h3 h4 h5
    simp [azureEscapeChar, h1, h2, h3, h4, h5]

/-- C1 at the string `a*(é)`: the standard encoding keeps `*`, `(` and `)`, the
table encoding escapes them. -/
theorem encodeTableUriComponent_spec_witness :
    encodeURIComponent (utf16 "a*(é)") = some (utf16 "a*(%C3%A9)") ∧
    encodeTableUriComponent (utf16 "a*(é)") = some (azureEscape (utf16 "a*(%C3%A9)")) ∧
    azureEscape (utf16 "a*(%C3%A9)") = utf16 "a%2A%28%C3%A9%29" :=
  ⟨rfl, (encodeTableUriComponent_spec.1 (utf16 "a*(é)") (utf16 "a*(%C3%A9)") rfl).1, rfl⟩

/-! ### remove -/

theorem requests_invoke (cb : Arg) (args : List JSValue) : requests (invoke cb args) = [] := by
  cases cb <;> rfl

theorem callsTo_invoke (cb : Nat) (args : List JSValue) :
    callsTo cb (invoke (.function cb) args) = [args] := by
  simp [invoke, callsTo]

theorem is204_iff (status : JSValue) :
    is204 status = true ↔ status = .number (utf16 "204") := by
  cases status <;> simp [is204]

/-- What `remove` does once the id passed validation and its path encoded. -/
theorem remove_valid (self : AzureClient) (id : JSValue) (cb : Arg) (path : JSString)
    (hid : truthy id = true) (hpath : encodeTableUriComponent (tablePath id) = some path) :
    remove self [.value id, cb] =
      .request (deleteRequest path) ::
        (match self.xmlRequest (deleteRequest path) with
         | .failure err => invoke cb [err]
         | .success _ res =>
           match getProp res "statusCode" with
           | .error e => [.throw e]
           | .ok status => invoke cb [.null, .bool (is204 status)]) := by
  simp [remove, argAt, hid, hpath, deleteRequest]

/-- What `remove` does when the path of a valid id does not encode. -/
theorem remove_unencodable (self : AzureClient) (id : JSValue) (cb : Arg)
    (hid : truthy id = true) (hpath : encodeTableUriComponent (tablePath id) = none) :
    remove self [.value id, cb] = [.throw .uriError] := by
  simp [remove, argAt, hid, hpath]

/-- What `remove` does when the id is missing or a function. -/
theorem remove_invalid (self : AzureClient) (idArg : Arg) (cb : Nat)
    (h : missingOrFunction idArg = true) :
    remove self [idArg, .function cb] =
      [.call cb [.error (utf16 "id is a required argument")]] := by
  cases idArg with
  | function f => simp [remove, argAt, lastArg, errsHandle]
  | value v =>
    simp [missingOrFunction] at h
    simp [remove, argAt, lastArg, errsHandle, h]

/-- C2: for a non-empty string id whose request the transport answers through
the success continuation with a response `res`, `remove` calls the callback once
with `(null, b)`, where `b` is true exactly when `res.statusCode` is the number
204; status 200 and 404 give `false`, and no error is passed. -/
theorem remove_success_flag (self : AzureClient) (id : JSString) (cb : Nat) (path : JSString)
    (body res status : JSValue) (hid : id ≠ [])
    (hpath : encodeTableUriComponent (tablePath (.string id)) = some path)
    (hsucc : self.xmlRequest (deleteRequest path) = .success body res)
    (hres : getProp res "statusCode" = .ok status) :
    remove self [.value (.string id), .function cb] =
      [.request (deleteRequest path), .call cb [.null, .bool (is204 status)]] ∧
    (is204 status = true ↔ status = .number (utf16 "204")) ∧
    is204 (.number (utf16 "200")) = false ∧ is204 (.number (utf16 "404")) = false := by
  refine ⟨?_, is204_iff status, rfl, rfl⟩
  have ht : truthy (.string id) = true := by
    cases id with
    | nil => exact absurd rfl hid
    | cons x xs => rfl
  rw [remove_valid self (.string id) (.function cb) path ht hpath, hsucc]
  simp [hres, invoke]

/-- C2 at the id `mytable` and a 204 response. -/
theorem remove_success_flag_witness :
    remove sampleAzure [.value (.string (utf16 "mytable")), .function 7] =
      [.request (deleteRequest (utf16 "Tables%28%27mytable%27%29")),
       .call 7 [.null, .bool true]] :=
  (remove_success_flag sampleAzure (utf16 "mytable") 7 (utf16 "Tables%28%27mytable%27%29")
    .undefined (.object [("statusCode", .number (utf16 "204"))]) (.number (utf16 "204"))
    (by decide) rfl rfl rfl).1

/-- C10: for a valid id whose path string encodes to `path`, the trace of `remove`
holds exactly one request, a DELETE whose only path segment is
`encodeTableUriComponent("Tables('" + id + "')")`; for `mytable` the segment is
`Tables%28%27mytable%27%29`. -/
theorem remove_request_path (self : AzureClient) (id : JSValue) (cb : Arg) (path : JSString)
    (hid : truthy id = true) (hpath : encodeTableUriComponent (tablePath id) = some path) :
    requests (remove self [.value id, cb]) =
      [{ method := some "DELETE", path := .segments [path], body := none, headers := [] }] ∧
    tablePath (.string (utf16 "mytable")) = utf16 "Tables('mytable')" ∧
    encodeTableUriComponent (utf16 "Tables('mytable')") =
      some (utf16 "Tables%28%27mytable%27%29") ∧
    requests (remove self [.value (.string (utf16 "mytable")), cb]) =
      [{ method := some "DELETE", path := .segments [utf16 "Tables%28%27mytable%27%29"],
         body := none, headers := [] }] := by
  have key : ∀ (v : JSValue) (p : JSString), truthy v = true →
      encodeTableUriComponent (tablePath v) = some p →
      requests (remove self [.value v, cb]) = [deleteRequest p] := by
    intro v p hv hp
    rw [remove_valid self v cb p hv hp]
    cases self.xmlRequest (deleteRequest p) with
    | failure err => simp [requests, requests_invoke]
    | success b res =>
      cases hres : getProp res "statusCode" with
      | error e => simp [requests, hres]
      | ok status => simp [requests, hres, requests_invoke]
  exact ⟨key id path hid hpath, rfl, rfl, key _ _ rfl rfl⟩

/-- C10 at the numeric id 42. -/
theorem remove_request_path_witness :
    requests (remove sampleAzure [.value (.number (utf16 "42")), .function 7]) =
      [{ method := some "DELETE", path := .segments [utf16 "Tables%28%2742%27%29"],
         body := none, headers := [] }] :=
  (remove_request_path sampleAzure (.number (utf16 "42")) (.function 7)
    (utf16 "Tables%28%2742%27%29") rfl rfl).1

/-- C4 (as stated, refuted): the id consisting of one unpaired surrogate is
neither falsy nor a function, yet `remove` issues no request and calls nothing:
`encodeURIComponent` raises `URIError`. -/
theorem remove_unpaired_surrogate :
    missingOrFunction (.value (.string [0xD800])) = false ∧
    remove sampleAzure [.value (.string [0xD800]), .function 7] = [.throw .uriError] ∧
    (requests (remove sampleAzure [.value (.string [0xD800]), .function 7])).length = 0 ∧
    callsTo 7 (remove sampleAzure [.value (.string [0xD800]), .function 7]) = [] := by
  refine ⟨rfl, rfl, rfl, rfl⟩

/-- C4 (amended): `remove` passes the validation error to the callback and
issues no request exactly when the id is falsy or a function, also when the
callback itself stands in the id position; for every other id whose path string
percent-encoding accepts exactly one DELETE request is issued, and for one it
rejects `URIError` is raised with no request and no callback. -/
theorem remove_validation (self : AzureClient) (idArg : Arg) (cb : Nat) :
    ((callsTo cb (remove self [idArg, .function cb]) =
          [[.error (utf16 "id is a required argument")]] ∧
        requests (remove self [idArg, .function cb]) = []) ↔
      missingOrFunction idArg = true) ∧
    (missingOrFunction idArg = true →
      remove self [idArg, .function cb] =
        [.call cb [.error (utf16 "id is a required argument")]]) ∧
    remove self [.function cb] = [.call cb [.error (utf16 "id is a required argument")]] ∧
    (∀ (id : JSValue) (path : JSString), idArg = .value id → missingOrFunction idArg = false →
      encodeTableUriComponent (tablePath id) = some path →
      requests (remove self [idArg, .function cb]) = [deleteRequest path]) ∧
    (∀ id : JSValue, idArg = .value id → missingOrFunction idArg = false →
      encodeTableUriComponent (tablePath id) = none →
      remove self [idArg, .function cb] = [.throw .uriError]) := by
  have hreq : ∀ (id : JSValue) (path : JSString), truthy id = true →
      encodeTableUriComponent (tablePath id) = some path →
      requests (remove self [.value id, .function cb]) = [deleteRequest path] := by
    intro id path hid hpath
    rw [remove_valid self id (.function cb) path hid hpath]
    cases self.xmlRequest (deleteRequest path) with
    | failure err => simp [requests, requests_invoke]
    | success b res =>
      cases hres : getProp res "statusCode" with
      | error e => simp [requests, hres]
      | ok status => simp [requests, hres, requests_invoke]
  refine ⟨⟨?_, ?_⟩, remove_invalid self idArg cb, ?_, ?_, ?_⟩
  · rintro ⟨hcall, hnone⟩
    cases idArg with
    | function f => rfl
    | value id =>
      by_contra hm
      have hid : truthy id = true := by simpa [missingOrFunction] using hm
      cases hp : encodeTableUriComponent (tablePath id) with
      | none =>
        rw [remove_unencodable self id (.function cb) hid hp] at hcall
        simp [callsTo] at hcall
      | some path =>
        rw [hreq id path hid hp] at hnone
        simp at hnone
  · intro h
    rw [remove_invalid self idArg cb h]
    simp [callsTo, requests]
  · simp [remove, argAt, lastArg, errsHandle]
  · intro id path hv hm hp
    subst hv
    exact hreq id path (by simpa [missingOrFunction] using hm) hp
  · intro id hv hm hp
    subst hv
    exact remove_unencodable self id (.function cb) (by simpa [missingOrFunction] using hm) hp

/-- C4 (amended) at the id `true`: one DELETE request for `Tables('true')`. -/
theorem remove_validation_witness :
    requests (remove sampleAzure [.value (.bool true), .function 7]) =
      [deleteRequest (utf16 "Tables%28%27true%27%29")] :=
  (remove_validation sampleAzure (.value (.bool true)) 7).2.2.2.1 (.bool true)
    (utf16 "Tables%28%27true%27%29") rfl rfl rfl

/-! ### create -/

theorem truthy_of_nameAbsent (n : JSValue) (h : nameAbsent n = true) : truthy n = false := by
  cases n with
  | string s => cases s <;> simp_all [nameAbsent, truthy]
  | _ => simp_all [nameAbsent, truthy]

/-- Truthy options that the specification calls unusable have a falsy `name`. -/
theorem getProp_name_of_unusable (v : JSValue) (hv : truthy v = true)
    (h : optionsUnusable (.value v) = true) :
    ∃ n, getProp v "name" = .ok n ∧ truthy n = false := by
  cases v with
  | undefined => simp [truthy] at hv
  | null => simp [truthy] at hv
  | bool b => exact ⟨.undefined, rfl, rfl⟩
  | number r => exact ⟨.undefined, rfl, rfl⟩
  | string s => exact ⟨.undefined, rfl, rfl⟩
  | object fields => exact ⟨_, rfl, truthy_of_nameAbsent _ (by simpa [optionsUnusable] using h)⟩
  | array items => exact ⟨.undefined, rfl, rfl⟩
  | error m => simp [optionsUnusable] at h
  | volumeType d =>
    exact ⟨_, rfl, truthy_of_nameAbsent _ (by simpa [optionsUnusable] using h)⟩

/-- The first guard of `create`. -/
theorem create_falsy (self : AzureClient) (v : JSValue) (cb : Nat) (hv : truthy v = false) :
    create self [.value v, .function cb] =
      [.call cb [.error (utf16 "Options required to create a database.")]] := by
  simp [create, argAt, lastArg, errsHandle, hv]

/-- The second guard of `create`. -/
theorem create_nameless (self : AzureClient) (v : JSValue) (cb : Nat) (n : JSValue)
    (hv : truthy v = true) (hn : getProp v "name" = .ok n) (hfalsy : truthy n = false) :
    create self [.value v, .function cb] =
      [.call cb [.error (utf16 "options.name is a required option")]] := by
  simp [create, argAt, lastArg, errsHandle, hv, hn, hfalsy]

/-- C3: when the options are missing, not an object, or an object without a
non-empty name, `create(options, cb)` does nothing but call `cb` once with an
error: no request is issued and no template is loaded; so it is for the empty
object and for `undefined`. -/
theorem create_rejects_options (self : AzureClient) (options : Arg) (cb : Nat)
    (h : optionsUnusable options = true) :
    (create self [options, .function cb] =
        [.call cb [.error (utf16 "Options required to create a database.")]] ∨
      create self [options, .function cb] =
        [.call cb [.error (utf16 "options.name is a required option")]]) ∧
    requests (create self [options, .function cb]) = [] ∧
    templateLoads (create self [options, .function cb]) = [] ∧
    create self [.value (.object []), .function cb] =
      [.call cb [.error (utf16 "options.name is a required option")]] ∧
    create self [.value .undefined, .function cb] =
      [.call cb [.error (utf16 "Options required to create a database.")]] := by
  have main : create self [options, .function cb] =
        [.call cb [.error (utf16 "Options required to create a database.")]] ∨
      create self [options, .function cb] =
        [.call cb [.error (utf16 "options.name is a required option")]] := by
    cases options with
    | function f => left; simp [create, argAt, lastArg, errsHandle]
    | value v =>
      by_cases hv : truthy v = true
      · right
        obtain ⟨n, hn, hfalsy⟩ := getProp_name_of_unusable v hv h
        exact create_nameless self v cb n hv hn hfalsy
      · left
        exact create_falsy self v cb (by simpa using hv)
  refine ⟨main, ?_, ?_, rfl, rfl⟩
  · rcases main with h1 | h1 <;> rw [h1] <;> rfl
  · rcases main with h1 | h1 <;> rw [h1] <;> rfl

/-- C3 at options whose name is the empty string. -/
theorem create_rejects_options_witness :
    requests (create sampleAzure [.value (.object [("name", .string [])]), .function 7]) = [] ∧
    templateLoads (create sampleAzure [.value (.object [("name", .string [])]), .function 7])
      = [] :=
  ⟨(create_rejects_options sampleAzure (.value (.object [("name", .string [])])) 7 rfl).2.1,
   (create_rejects_options sampleAzure (.value (.object [("name", .string [])])) 7 rfl).2.2.1⟩

/-- C5 (the code at a failing input): for the name `é` the rendered body has 28
UTF-16 code units and 29 bytes; the POST request carries content-length 28. -/
theorem create_content_length_nonascii :
    requests (create sampleAzure
        [.value (.object [("name", .string (utf16 "é"))]), .function 7]) =
      [{ method := some "POST", path := .segments [utf16 "Tables"],
         body := some (utf16 "<d:TableName>é</d:TableName>"),
         headers := [("content-length", 28)] }] ∧
    utf8ByteLength (utf16 "<d:TableName>é</d:TableName>") = 29 := by
  refine ⟨rfl, rfl⟩

/-! ### list -/

/-- C6 (as stated, refuted): for the successful body whose single entry is the
empty object, `list` issues its request and raises `TypeError` in
`formatResponse`; the callback is never called. -/
theorem list_bare_entry :
    bareEntryAzure.xmlRequest listRequest =
      .success (.object [("entry", .object [])])
        (.object [("statusCode", .number (utf16 "200"))]) ∧
    list bareEntryAzure (.function 7) = [.request listRequest, .throw .typeError] ∧
    callsTo 7 (list bareEntryAzure (.function 7)) = [] := by
  refine ⟨rfl, rfl, rfl⟩

theorem getProp_error (v : JSValue) (key : String) (t : Thrown)
    (h : getProp v key = .error t) : t = .typeError ∧ readable v = false := by
  cases v <;> simp_all [getProp, readable]

theorem getProp_ok (v : JSValue) (key : String) (n : JSValue)
    (h : getProp v key = .ok n) : readable v = true := by
  cases v <;> simp_all [getProp, readable]

theorem getProp_of_readable (v : JSValue) (key : String) (h : readable v = true) :
    ∃ n, getProp v key = .ok n := by
  cases v <;> simp_all [getProp, readable]

/-- An entry without readable table properties makes `formatResponse` raise
`TypeError`. -/
theorem formatResponse_error (self : AzureClient) (e : JSValue)
    (h : hasTableProperties e = false) : formatResponse self e = .error .typeError := by
  cases h1 : getProp e "content" with
  | error t =>
    obtain ⟨ht, _⟩ := getProp_error e "content" t h1
    subst ht
    simp [formatResponse, h1, bind, Except.bind]
  | ok c =>
    cases h2 : getProp c "m:properties" with
    | error t =>
      obtain ⟨ht, _⟩ := getProp_error c "m:properties" t h2
      subst ht
      simp [formatResponse, h1, h2, bind, Except.bind]
    | ok p =>
      have hp : readable p = false := by simpa [hasTableProperties, h1, h2] using h
      cases h3 : getProp p "d:TableName" with
      | error t =>
        obtain ⟨ht, _⟩ := getProp_error p "d:TableName" t h3
        subst ht
        simp [formatResponse, h1, h2, h3, bind, Except.bind]
      | ok n => rw [getProp_ok p "d:TableName" n h3] at hp; exact absurd hp (by simp)

/-- An entry with readable table properties is formatted. -/
theorem formatResponse_ok (self : AzureClient) (e : JSValue)
    (h : hasTableProperties e = true) : ∃ r, formatResponse self e = .ok r := by
  cases h1 : getProp e "content" with
  | error t => simp [hasTableProperties, h1] at h
  | ok c =>
    cases h2 : getProp c "m:properties" with
    | error t => simp [hasTableProperties, h1, h2] at h
    | ok p =>
      have hp : readable p = true := by simpa [hasTableProperties, h1, h2] using h
      obtain ⟨n, h3⟩ := getProp_of_readable p "d:TableName" hp
      obtain ⟨u, h4⟩ := getProp_of_readable e "id" (getProp_ok e "content" c h1)
      refine ⟨.object [("id", n), ("host", .string (url self [])), ("uri", u),
        ("username", .string []), ("password", .string [])], ?_⟩
      simp [formatResponse, h1, h2, h3, h4, bind, Except.bind, pure, Except.pure]

theorem formatResponse_ok_iff (self : AzureClient) (e : JSValue) :
    (∃ r, formatResponse self e = .ok r) ↔ hasTableProperties e = true := by
  constructor
  · rintro ⟨r, hr⟩
    by_contra hn
    rw [formatResponse_error self e (by simpa using hn)] at hr
    cases hr
  · exact formatResponse_ok self e

theorem formatAll_forall₂ (self : AzureClient) (entries : List JSValue) :
    (∀ e ∈ entries, ∃ r, formatResponse self e = .ok r) →
    ∃ records, formatAll self entries = .ok records ∧
      List.Forall₂ (fun e r => formatResponse self e = .ok r) entries records := by
  induction entries with
  | nil => intro _; exact ⟨[], rfl, List.Forall₂.nil⟩
  | cons e es ih =>
    intro h
    obtain ⟨r, hr⟩ := h e (List.mem_cons_self _ _)
    obtain ⟨rs, hrs, hall⟩ := ih (fun x hx => h x (List.mem_cons_of_mem _ hx))
    exact ⟨r :: rs, by simp [formatAll, hr, hrs], List.Forall₂.cons hr hall⟩

/-- The loop of `list` stops with `TypeError` at the first entry that is not
formatted. -/
theorem formatAll_error (self : AzureClient) (entries : List JSValue) :
    (∃ e ∈ entries, ∀ r, formatResponse self e ≠ .ok r) →
    formatAll self entries = .error .typeError := by
  induction entries with
  | nil => rintro ⟨e, he, _⟩; simp at he
  | cons x xs ih =>
    rintro ⟨e, he, hne⟩
    by_cases hx : hasTableProperties x = true
    · obtain ⟨r, hr⟩ := formatResponse_ok self x hx
      have hin : e ∈ xs := by
        rcases List.mem_cons.mp he with h | h
        · subst h; exact absurd hr (hne r)
        · exact h
      simp [formatAll, hr, ih ⟨e, hin, hne⟩]
    · simp [formatAll, formatResponse_error self x (by simpa using hx)]

/-- The trace of `list` after a successful answer, by what the success
continuation builds. -/
theorem list_success (self : AzureClient) (cb : Nat) (body res : JSValue)
    (hsucc : self.xmlRequest listRequest = .success body res) :
    list self (.function cb) =
      .request listRequest ::
        (match listTables self body with
         | .error e => [.throw e]
         | .ok tables => [.call cb [.null, .array tables]]) := by
  have hs := hsucc
  simp only [listRequest] at hs
  simp only [list, hs, invoke, listRequest]

/-- C6 (amended): for a successful response body, when `body.entry` is an array
whose entries `formatResponse` all accepts, `list` calls back once with `null`
and the records of the entries in input order, as many as there are entries;
when it is a single truthy value that `formatResponse` accepts, with the
one-element sequence of its record; when the body or the entry is falsy, with
the empty sequence.  When the array holds an entry, or the single value is one,
that `formatResponse` does not accept, `list` raises `TypeError` after its
request and never calls back.  `formatResponse` accepts exactly the entries
whose `content` and `m:properties` can be read. -/
theorem list_normalizes (self : AzureClient) (cb : Nat) (body res : JSValue)
    (hsucc : self.xmlRequest listRequest = .success body res) :
    (∀ entries : List JSValue, truthy body = true →
      getProp body "entry" = .ok (.array entries) →
      (∀ e ∈ entries, ∃ r, formatResponse self e = .ok r) →
      ∃ records, list self (.function cb) =
          [.request listRequest, .call cb [.null, .array records]] ∧
        records.length = entries.length ∧
        List.Forall₂ (fun e r => formatResponse self e = .ok r) entries records) ∧
    (∀ entry record : JSValue, truthy body = true → getProp body "entry" = .ok entry →
      truthy entry = true → (∀ items, entry ≠ .array items) →
      formatResponse self entry = .ok record →
      list self (.function cb) = [.request listRequest, .call cb [.null, .array [record]]]) ∧
    (truthy body = false ∨ (∃ entry, getProp body "entry" = .ok entry ∧ truthy entry = false) →
      list self (.function cb) = [.request listRequest, .call cb [.null, .array []]]) ∧
    (∀ entries : List JSValue, truthy body = true →
      getProp body "entry" = .ok (.array entries) →
      (∃ e ∈ entries, ∀ r, formatResponse self e ≠ .ok r) →
      list self (.function cb) = [.request listRequest, .throw .typeError] ∧
        callsTo cb (list self (.function cb)) = []) ∧
    (∀ entry : JSValue, truthy body = true → getProp body "entry" = .ok entry →
      truthy entry = true → (∀ items, entry ≠ .array items) →
      (∀ r, formatResponse self entry ≠ .ok r) →
      list self (.function cb) = [.request listRequest, .throw .typeError] ∧
        callsTo cb (list self (.function cb)) = []) ∧
    (∀ e : JSValue, (∃ r, formatResponse self e = .ok r) ↔ hasTableProperties e = true) := by
  have hlist : ∀ tables, listTables self body = .ok tables →
      list self (.function cb) = [.request listRequest, .call cb [.null, .array tables]] := by
    intro tables ht
    rw [list_success self cb body res hsucc, ht]
  have hfail : listTables self body = .error .typeError →
      list self (.function cb) = [.request listRequest, .throw .typeError] ∧
        callsTo cb (list self (.function cb)) = [] := by
    intro ht
    rw [list_success self cb body res hsucc, ht]
    exact ⟨rfl, rfl⟩
  refine ⟨?_, ?_, ?_, ?_, ?_, formatResponse_ok_iff self⟩
  · intro entries hb he hall
    obtain ⟨records, hrec, hf⟩ := formatAll_forall₂ self entries hall
    refine ⟨records, hlist records ?_, hf.length_eq.symm, hf⟩
    have ha : truthy (.array entries) = true := rfl
    simp [listTables, hb, he, ha, hrec]
  · intro entry record hb he ht hna hr
    apply hlist
    cases entry with
    | array items => exact absurd rfl (hna items)
    | _ => simp_all [listTables, Except.map]
  · intro h
    apply hlist
    rcases h with hb | ⟨entry, he, ht⟩
    · simp [listTables, hb]
    · by_cases hb : truthy body = true
      · simp [listTables, hb, he, ht]
      · simp [listTables, hb]
  · intro entries hb he hbad
    apply hfail
    have ha : truthy (.array entries) = true := rfl
    simp [listTables, hb, he, ha, formatAll_error self entries hbad]
  · intro entry hb he ht hna hbad
    apply hfail
    have herr : formatResponse self entry = .error .typeError := by
      apply formatResponse_error
      by_contra hn
      obtain ⟨r, hr⟩ := formatResponse_ok self entry (by simpa using hn)
      exact hbad r hr
    cases entry with
    | array items => exact absurd rfl (hna items)
    | _ => simp_all [listTables, Except.map]

/-- C6 (amended) at a body with two entries: two records, in input order; and
at a body whose single entry has no content: `TypeError`, no call. -/
theorem list_normalizes_witness :
    (∃ records, list twoTablesAzure (.function 7) =
        [.request listRequest, .call 7 [.null, .array records]] ∧
      records.length = 2 ∧
      List.Forall₂ (fun e r => formatResponse twoTablesAzure e = .ok r)
        [tableEntry "t1", tableEntry "t2"] records) ∧
    (list bareEntryAzure (.function 7) = [.request listRequest, .throw .typeError] ∧
      callsTo 7 (list bareEntryAzure (.function 7)) = []) :=
  ⟨(list_normalizes twoTablesAzure 7
      (.object [("entry", .array [tableEntry "t1", tableEntry "t2"])])
      (.object [("statusCode", .number (utf16 "200"))]) rfl).1
    [tableEntry "t1", tableEntry "t2"] rfl rfl
    (by
      intro e he
      simp only [List.mem_cons, List.mem_singleton, List.not_mem_nil, or_false] at he
      rcases he with h | h
      · exact ⟨tableRecord "t1", by rw [h]; rfl⟩
      · exact ⟨tableRecord "t2", by rw [h]; rfl⟩),
   (list_normalizes bareEntryAzure 7 (.object [("entry", .object [])])
      (.object [("statusCode", .number (utf16 "200"))]) rfl).2.2.2.2.1
    (.object []) rfl rfl rfl (fun items h => nomatch h) (fun r h => nomatch h)⟩

/-! ### getVolumeTypes and getVolumeType -/

/-- C8: when the transport answers without error and `body.volume_types` is a
sequence of items, `getVolumeTypes` calls back once with `null`, the records
wrapping the items in response order (as many as there are items) and the raw
response; an empty sequence gives the empty result and no error; when the
transport reports an error the callback receives that error alone. -/
theorem getVolumeTypes_maps (self : RackspaceClient) (cb : Nat) (err body res : JSValue)
    (hans : self.request typesRequest = (err, body, res)) :
    (∀ items : List JSValue, truthy err = false →
      getProp body "volume_types" = .ok (.array items) →
      getVolumeTypes self (.function cb) =
          [.request typesRequest, .call cb [.null, .array (items.map newVolumeType), res]] ∧
        (items.map newVolumeType).length = items.length ∧
        ∀ (i : Nat) (h : i < items.length),
          (items.map newVolumeType)[i]? = some (newVolumeType items[i])) ∧
    (truthy err = false → getProp body "volume_types" = .ok (.array []) →
      getVolumeTypes self (.function cb) =
        [.request typesRequest, .call cb [.null, .array [], res]]) ∧
    (truthy err = true →
      getVolumeTypes self (.function cb) = [.request typesRequest, .call cb [err]]) := by
  have hs := hans
  simp only [typesRequest] at hs
  have hrun : ∀ items : List JSValue, truthy err = false →
      getProp body "volume_types" = .ok (.array items) →
      getVolumeTypes self (.function cb) =
        [.request typesRequest, .call cb [.null, .array (items.map newVolumeType), res]] := by
    intro items he hb
    simp [getVolumeTypes, hs, he, hb, invoke, typesRequest]
  refine ⟨fun items he hb => ⟨hrun items he hb, by simp, ?_⟩, fun he hb => hrun [] he hb, ?_⟩
  · intro i h
    simp [h]
  · intro he
    simp [getVolumeTypes, hs, he, invoke, typesRequest]

/-- C8 at a response with two volume types. -/
theorem getVolumeTypes_maps_witness :
    getVolumeTypes sampleRackspace (.function 7) =
      [.request typesRequest,
       .call 7 [.null,
         .array [.volumeType (.object [("id", .number (utf16 "1"))]),
                 .volumeType (.object [("id", .number (utf16 "2"))])],
         .object [("statusCode", .number (utf16 "200"))]]] :=
  ((getVolumeTypes_maps sampleRackspace 7 _ _ _ rfl).1
    [.object [("id", .number (utf16 "1"))], .object [("id", .number (utf16 "2"))]] rfl rfl).1

/-- What `getVolumeType` does once the identifier is resolved. -/
theorem getVolumeType_run (self : RackspaceClient) (volumetype id : JSValue) (cb : Arg)
    (hid : (if instanceofVolumeType volumetype then getProp volumetype "id"
      else .ok volumetype) = .ok id) :
    getVolumeType self volumetype cb =
      .request (typeRequest id) ::
        (if truthy (self.request (typeRequest id)).1 then
           invoke cb [(self.request (typeRequest id)).1]
         else
           match getProp (self.request (typeRequest id)).2.1 "volume_type" with
           | .error e => [.throw e]
           | .ok details => invoke cb [.null, newVolumeType details]) := by
  unfold getVolumeType
  rw [hid]
  rfl

/-- C7: for an identifier `id` (not itself a record) and a VolumeType instance
whose `id` field is `id`, `getVolumeType` produces the same trace for both: one
request with path `'types/' + id`; when the transport reports an error the
callback receives exactly that error, and when it answers with a body whose
`volume_type` can be read, the callback receives `null` and one VolumeType built
from it. -/
theorem getVolumeType_instance_or_id (self : RackspaceClient) (id details : JSValue) (cb : Nat)
    (hraw : instanceofVolumeType id = false)
    (hinst : getProp (.volumeType details) "id" = .ok id) :
    getVolumeType self (.volumeType details) (.function cb) =
      getVolumeType self id (.function cb) ∧
    requests (getVolumeType self id (.function cb)) =
      [{ method := none, path := .plain (utf16 "types/" ++ jsToString id), body := none,
         headers := [] }] ∧
    requests (getVolumeType self (.volumeType details) (.function cb)) =
      [{ method := none, path := .plain (utf16 "types/" ++ jsToString id), body := none,
         headers := [] }] ∧
    (∀ err body res : JSValue, self.request (typeRequest id) = (err, body, res) →
      truthy err = true →
      getVolumeType self id (.function cb) = [.request (typeRequest id), .call cb [err]]) ∧
    (∀ err body res volume_type : JSValue, self.request (typeRequest id) = (err, body, res) →
      truthy err = false → getProp body "volume_type" = .ok volume_type →
      getVolumeType self id (.function cb) =
        [.request (typeRequest id), .call cb [.null, newVolumeType volume_type]]) := by
  have h1 : getVolumeType self id (.function cb) = _ :=
    getVolumeType_run self id id (.function cb) (by simp [hraw])
  have h2 : getVolumeType self (.volumeType details) (.function cb) = _ :=
    getVolumeType_run self (.volumeType details) id (.function cb)
      (by simp [instanceofVolumeType, hinst])
  have hreq : requests (getVolumeType self id (.function cb)) = [typeRequest id] := by
    rw [h1]
    by_cases ht : truthy (self.request (typeRequest id)).1 = true
    · simp [requests, ht, invoke]
    · cases hg : getProp (self.request (typeRequest id)).2.1 "volume_type" with
      | error e => simp [requests, ht, hg]
      | ok d => simp [requests, ht, hg, invoke]
  refine ⟨by rw [h1, h2], hreq, by rw [h2, ← h1]; exact hreq, ?_, ?_⟩
  · intro err body res hans ht
    rw [h1, hans]
    simp [ht, invoke]
  · intro err body res vt hans ht hg
    rw [h1, hans]
    simp [ht, hg, invoke]

/-- C7 at the identifier 1 and a record built from details with that id. -/
theorem getVolumeType_instance_or_id_witness :
    getVolumeType sampleRackspace (.volumeType (.object [("id", .number (utf16 "1"))]))
        (.function 7) =
      getVolumeType sampleRackspace (.number (utf16 "1")) (.function 7) ∧
    getVolumeType sampleRackspace (.number (utf16 "1")) (.function 7) =
      [.request (typeRequest (.number (utf16 "1"))),
       .call 7 [.null, newVolumeType (.object [("id", .number (utf16 "1"))])]] :=
  ⟨(getVolumeType_instance_or_id sampleRackspace (.number (utf16 "1"))
      (.object [("id", .number (utf16 "1"))]) 7 rfl rfl).1,
   (getVolumeType_instance_or_id sampleRackspace (.number (utf16 "1"))
      (.object [("id", .number (utf16 "1"))]) 7 rfl rfl).2.2.2.2 _ _ _ _ rfl rfl rfl⟩

/-! ### One callback per call -/

/-- C9 (as stated, refuted): for a successful answer whose body lacks
`volume_types`, `getVolumeTypes` raises `TypeError` and the callback is called
zero times. -/
theorem getVolumeTypes_missing_field :
    emptyBodyRackspace.request typesRequest =
      (.null, .object [], .object [("statusCode", .number (utf16 "200"))]) ∧
    getVolumeTypes emptyBodyRackspace (.function 7) =
      [.request typesRequest, .throw .typeError] ∧
    (callsTo 7 (getVolumeTypes emptyBodyRackspace (.function 7))).length = 0 := by
  refine ⟨rfl, rfl, rfl⟩

theorem calledOnce_error (cb : Nat) (err : JSValue) : calledOnce cb [.call cb [err]] :=
  ⟨[err], by simp [callsTo], Or.inl ⟨err, rfl⟩⟩

theorem calledOnce_result (cb : Nat) (result : JSValue) (rest : List JSValue) :
    calledOnce cb [.call cb (.null :: result :: rest)] :=
  ⟨.null :: result :: rest, by simp [callsTo], Or.inr ⟨result, rest, rfl⟩⟩

theorem calledOnce_request (cb : Nat) (r : Request) (trace : List Event)
    (h : calledOnce cb trace) : calledOnce cb (.request r :: trace) := by
  simpa [calledOnce, callsTo] using h

theorem calledOnce_loadTemplate (cb : Nat) (p : String) (trace : List Event)
    (h : calledOnce cb trace) : calledOnce cb (.loadTemplate p :: trace) := by
  simpa [calledOnce, callsTo] using h

theorem createDone_once (self : AzureClient) (cb : Nat) (err result : JSValue)
    (h : truthy err = true ∨ (truthy err = false ∧ ∃ db, formatResponse self result = .ok db)) :
    calledOnce cb (createDone self (.function cb) err result) := by
  rcases h with h | ⟨h, db, hdb⟩
  · simp only [createDone, h, if_true, invoke]
    exact calledOnce_error cb err
  · simp only [createDone, h, hdb, invoke]
    exact calledOnce_result cb db []

theorem getProp_of_truthy (v : JSValue) (key : String) (h : truthy v = true) :
    ∃ n, getProp v key = .ok n := by
  cases v with
  | undefined => simp [truthy] at h
  | null => simp [truthy] at h
  | _ => exact ⟨_, rfl⟩

/-- What `create` does once the options passed validation. -/
theorem create_valid (self : AzureClient) (options name : JSValue) (cb : Arg)
    (hv : truthy options = true) (hn : getProp options "name" = .ok name)
    (ht : truthy name = true) :
    create self [.value options, cb] =
      .loadTemplate "templates/createTable.xml" ::
        (if truthy (self.loadTemplate "templates/createTable.xml").1 then
           createDone self cb (self.loadTemplate "templates/createTable.xml").1 .undefined
         else
           match template (self.loadTemplate "templates/createTable.xml").2 name self.now with
           | .error e => [.throw e]
           | .ok body =>
             .request (createRequest body) ::
               (match self.request (createRequest body) with
                | .failure err => createDone self cb err .undefined
                | .success raw _ =>
                  if truthy (self.xml2JSON raw).1 then
                    createDone self cb (self.xml2JSON raw).1 .undefined
                  else createDone self cb .null (self.xml2JSON raw).2)) := by
  simp [create, argAt, hv, hn, ht, createRequest]

theorem raisesUncalled_throw (cb : Nat) (t : Thrown) : raisesUncalled cb t [.throw t] :=
  ⟨rfl, rfl⟩

theorem raisesUncalled_request (cb : Nat) (t : Thrown) (q : Request) (trace : List Event)
    (h : raisesUncalled cb t trace) : raisesUncalled cb t (.request q :: trace) := by
  cases trace with
  | nil => simp [raisesUncalled] at h
  | cons e es => simpa [raisesUncalled, callsTo, List.getLast?_cons_cons] using h

theorem raisesUncalled_loadTemplate (cb : Nat) (t : Thrown) (p : String) (trace : List Event)
    (h : raisesUncalled cb t trace) : raisesUncalled cb t (.loadTemplate p :: trace) := by
  cases trace with
  | nil => simp [raisesUncalled] at h
  | cons e es => simpa [raisesUncalled, callsTo, List.getLast?_cons_cons] using h

theorem createDone_raises (self : AzureClient) (cb : Nat) (err result : JSValue)
    (he : truthy err = false) (hr : hasTableProperties result = false) :
    raisesUncalled cb .typeError (createDone self (.function cb) err result) := by
  simp only [createDone, he, formatResponse_error self result hr]
  exact raisesUncalled_throw cb .typeError

theorem readable_of_truthy (v : JSValue) (h : truthy v = true) : readable v = true := by
  cases v <;> simp_all [truthy, readable]

/-- The success continuation of `list` builds its array when every entry it
reads has table properties. -/
theorem listTables_ok (self : AzureClient) (body : JSValue)
    (h : (entriesRead body).all hasTableProperties = true) :
    ∃ tables, listTables self body = .ok tables := by
  by_cases hb : truthy body = true
  · obtain ⟨entry, he⟩ := getProp_of_readable body "entry" (readable_of_truthy body hb)
    by_cases ht : truthy entry = true
    · cases entry with
      | array entries =>
        have hall : ∀ e ∈ entries, ∃ r, formatResponse self e = .ok r := by
          intro e hin
          apply formatResponse_ok
          have := List.all_eq_true.mp h
          exact this e (by simpa [entriesRead, hb, he] using hin)
        obtain ⟨records, hrec, _⟩ := formatAll_forall₂ self entries hall
        exact ⟨records, by simp [listTables, hb, he, ht, hrec]⟩
      | _ =>
        simp only [entriesRead, hb, he, ht, if_true, List.all_cons, List.all_nil,
          Bool.and_true] at h
        obtain ⟨r, hr⟩ := formatResponse_ok self _ h
        exact ⟨[r], by simp [listTables, hb, he, ht, hr, Except.map]⟩
    · exact ⟨[], by simp [listTables, hb, he, ht]⟩
  · exact ⟨[], by simp [listTables, hb]⟩

/-- The success continuation of `list` raises `TypeError` when an entry it reads
has no table properties. -/
theorem listTables_error (self : AzureClient) (body : JSValue)
    (h : (entriesRead body).all hasTableProperties = false) :
    listTables self body = .error .typeError := by
  by_cases hb : truthy body = true
  · obtain ⟨entry, he⟩ := getProp_of_readable body "entry" (readable_of_truthy body hb)
    by_cases ht : truthy entry = true
    · cases entry with
      | array entries =>
        have hbad : ∃ e ∈ entries, ∀ r, formatResponse self e ≠ .ok r := by
          have h2 : entries.all hasTableProperties = false := by
            simpa [entriesRead, hb, he] using h
          have h3 : ¬ ∀ e ∈ entries, hasTableProperties e = true := by
            intro hall
            rw [List.all_eq_true.mpr hall] at h2
            cases h2
          push_neg at h3
          obtain ⟨e, hin, hne⟩ := h3
          refine ⟨e, hin, fun r hr => ?_⟩
          rw [formatResponse_error self e (by simpa using hne)] at hr
          cases hr
        simp [listTables, hb, he, ht, formatAll_error self entries hbad]
      | _ =>
        simp only [entriesRead, hb, he, ht, if_true, List.all_cons, List.all_nil,
          Bool.and_true] at h
        simp [listTables, hb, he, ht, formatResponse_error self _ h, Except.map]
    · have hf : truthy entry = false := by simpa using ht
      have hnil : entriesRead body = [] := by
        cases entry with
        | array es => exact absurd rfl ht
        | _ => simp [entriesRead, hb, he, hf]
      rw [hnil] at h
      cases h
  · simp [entriesRead, hb] at h

/-- C9 (amended): with a callback given, each of `create`, `list`, `remove`,
`getVolumeTypes` and `getVolumeType` either calls it exactly once, with an
error alone or with `null` and a result, or raises an exception without calling
it, according to the outcome of the call.  It is called exactly once when
validation fails, when a collaborator reports a truthy error, and when the
success result can be read: a string template and parsed data with readable
table properties (`create`), listed entries with readable table properties
(`list`), a response that is not null or undefined (`remove`), an array
`volume_types`, a body that is not null or undefined (`getVolumeType`).  In
every other outcome `TypeError` is raised (`URIError` for an id whose path
`remove` cannot encode) and the callback is not called. -/
theorem callback_exactly_once (a : AzureClient) (r : RackspaceClient) (cb : Nat) :
    (∀ options : Arg,
      (missingOrFunction options = true →
        calledOnce cb (create a [options, .function cb])) ∧
      (∀ v name : JSValue, options = .value v → truthy v = true →
        getProp v "name" = .ok name →
        (truthy name = false → calledOnce cb (create a [options, .function cb])) ∧
        (truthy name = true →
          (truthy (a.loadTemplate "templates/createTable.xml").1 = true →
            calledOnce cb (create a [options, .function cb])) ∧
          (truthy (a.loadTemplate "templates/createTable.xml").1 = false →
            (∀ t, (a.loadTemplate "templates/createTable.xml").2 ≠ .string t) →
            raisesUncalled cb .typeError (create a [options, .function cb])) ∧
          (∀ t : JSString, truthy (a.loadTemplate "templates/createTable.xml").1 = false →
            (a.loadTemplate "templates/createTable.xml").2 = .string t →
            (∀ err, a.request (createRequest (renderFrom (jsToString name) a.now 0 t)) =
                .failure err →
              (truthy err = true → calledOnce cb (create a [options, .function cb])) ∧
              (truthy err = false →
                raisesUncalled cb .typeError (create a [options, .function cb]))) ∧
            (∀ raw res, a.request (createRequest (renderFrom (jsToString name) a.now 0 t)) =
                .success raw res →
              (truthy (a.xml2JSON raw).1 = true ∨
                  hasTableProperties (a.xml2JSON raw).2 = true →
                calledOnce cb (create a [options, .function cb])) ∧
              (truthy (a.xml2JSON raw).1 = false →
                hasTableProperties (a.xml2JSON raw).2 = false →
                raisesUncalled cb .typeError (create a [options, .function cb]))))))) ∧
    ((∀ err, a.xmlRequest listRequest = .failure err →
        calledOnce cb (list a (.function cb))) ∧
      (∀ body res, a.xmlRequest listRequest = .success body res →
        ((entriesRead body).all hasTableProperties = true →
          calledOnce cb (list a (.function cb))) ∧
        ((entriesRead body).all hasTableProperties = false →
          raisesUncalled cb .typeError (list a (.function cb))))) ∧
    (∀ idArg : Arg,
      (missingOrFunction idArg = true → calledOnce cb (remove a [idArg, .function cb])) ∧
      (∀ id : JSValue, idArg = .value id → truthy id = true →
        (encodeTableUriComponent (tablePath id) = none →
          raisesUncalled cb .uriError (remove a [idArg, .function cb])) ∧
        (∀ path, encodeTableUriComponent (tablePath id) = some path →
          (∀ err, a.xmlRequest (deleteRequest path) = .failure err →
            calledOnce cb (remove a [idArg, .function cb])) ∧
          (∀ body res, a.xmlRequest (deleteRequest path) = .success body res →
            (readable res = true → calledOnce cb (remove a [idArg, .function cb])) ∧
            (readable res = false →
              raisesUncalled cb .typeError (remove a [idArg, .function cb])))))) ∧
    (∀ err body res : JSValue, r.request typesRequest = (err, body, res) →
      (truthy err = true → calledOnce cb (getVolumeTypes r (.function cb))) ∧
      (truthy err = false →
        (∀ items, getProp body "volume_types" = .ok (.array items) →
          calledOnce cb (getVolumeTypes r (.function cb))) ∧
        ((∀ items, getProp body "volume_types" ≠ .ok (.array items)) →
          raisesUncalled cb .typeError (getVolumeTypes r (.function cb))))) ∧
    (∀ volumetype : JSValue,
      ∃ id, (if instanceofVolumeType volumetype then getProp volumetype "id"
          else .ok volumetype) = .ok id ∧
        ∀ err body res : JSValue, r.request (typeRequest id) = (err, body, res) →
          (truthy err = true → calledOnce cb (getVolumeType r volumetype (.function cb))) ∧
          (truthy err = false →
            (readable body = true →
              calledOnce cb (getVolumeType r volumetype (.function cb))) ∧
            (readable body = false →
              raisesUncalled cb .typeError
                (getVolumeType r volumetype (.function cb))))) := by
  refine ⟨?_, ⟨?_, ?_⟩, ?_, ?_, ?_⟩
  · intro options
    refine ⟨?_, ?_⟩
    · intro hm
      cases options with
      | function f =>
        have : create a [.function f, .function cb] =
            [.call cb [.error (utf16 "Options required to create a database.")]] := by
          simp [create, argAt, lastArg, errsHandle]
        rw [this]; exact calledOnce_error cb _
      | value v =>
        rw [create_falsy a v cb (by simpa [missingOrFunction] using hm)]
        exact calledOnce_error cb _
    · intro v name ho hv hn
      subst ho
      refine ⟨?_, ?_⟩
      · intro hf
        rw [create_nameless a v cb name hv hn hf]
        exact calledOnce_error cb _
      · intro ht
        rw [create_valid a v name (.function cb) hv hn ht]
        refine ⟨?_, ?_, ?_⟩
        · intro hl
          apply calledOnce_loadTemplate
          rw [if_pos hl]
          exact createDone_once a cb _ _ (Or.inl hl)
        · intro hl hnot
          apply raisesUncalled_loadTemplate
          have hne : ¬ truthy (a.loadTemplate "templates/createTable.xml").1 = true := by
            simp [hl]
          rw [if_neg hne]
          have htpl : template (a.loadTemplate "templates/createTable.xml").2 name a.now =
              .error .typeError := by
            cases h2 : (a.loadTemplate "templates/createTable.xml").2 with
            | string t => exact absurd h2 (hnot t)
            | _ => rfl
          rw [htpl]
          exact raisesUncalled_throw cb .typeError
        · intro t hl htpl
          have hne : ¬ truthy (a.loadTemplate "templates/createTable.xml").1 = true := by
            simp [hl]
          rw [if_neg hne]
          simp only [htpl, template]
          refine ⟨?_, ?_⟩
          · intro err hout
            rw [hout]
            refine ⟨?_, ?_⟩
            · intro he
              apply calledOnce_loadTemplate
              apply calledOnce_request
              exact createDone_once a cb _ _ (Or.inl he)
            · intro he
              apply raisesUncalled_loadTemplate
              apply raisesUncalled_request
              exact createDone_raises a cb _ _ he rfl
          · intro raw res hout
            rw [hout]
            refine ⟨?_, ?_⟩
            · intro hx
              apply calledOnce_loadTemplate
              apply calledOnce_request
              show calledOnce cb (if truthy (a.xml2JSON raw).1 then _ else _)
              by_cases he : truthy (a.xml2JSON raw).1 = true
              · rw [if_pos he]
                exact createDone_once a cb _ _ (Or.inl he)
              · rw [if_neg he]
                have hp := hx.resolve_left he
                exact createDone_once a cb _ _
                  (Or.inr ⟨rfl, formatResponse_ok a _ hp⟩)
            · intro he hp
              apply raisesUncalled_loadTemplate
              apply raisesUncalled_request
              show raisesUncalled cb .typeError (if truthy (a.xml2JSON raw).1 then _ else _)
              have hne2 : ¬ truthy (a.xml2JSON raw).1 = true := by simp [he]
              rw [if_neg hne2]
              exact createDone_raises a cb _ _ rfl hp
  · intro err hout
    have hrun : list a (.function cb) = [.request listRequest, .call cb [err]] := by
      have hs := hout
      simp only [listRequest] at hs
      simp only [list, hs, invoke, listRequest]
    rw [hrun]
    exact calledOnce_request cb _ _ (calledOnce_error cb err)
  · intro body res hout
    rw [list_success a cb body res hout]
    refine ⟨?_, ?_⟩
    · intro h
      obtain ⟨tables, ht⟩ := listTables_ok a body h
      rw [ht]
      exact calledOnce_request cb _ _ (calledOnce_result cb _ [])
    · intro h
      rw [listTables_error a body h]
      exact raisesUncalled_request cb _ _ _ (raisesUncalled_throw cb .typeError)
  · intro idArg
    refine ⟨?_, ?_⟩
    · intro hm
      rw [remove_invalid a idArg cb hm]
      exact calledOnce_error cb _
    · intro id hi hid
      subst hi
      refine ⟨?_, ?_⟩
      · intro hp
        rw [remove_unencodable a id (.function cb) hid hp]
        exact raisesUncalled_throw cb .uriError
      · intro path hp
        rw [remove_valid a id (.function cb) path hid hp]
        refine ⟨?_, ?_⟩
        · intro err hout
          rw [hout]
          exact calledOnce_request cb _ _ (calledOnce_error cb err)
        · intro body res hout
          rw [hout]
          refine ⟨?_, ?_⟩
          · intro hr
            obtain ⟨status, hs⟩ := getProp_of_readable res "statusCode" hr
            simp only [hs, invoke]
            exact calledOnce_request cb _ _ (calledOnce_result cb _ [])
          · intro hr
            have hs : getProp res "statusCode" = .error .typeError := by
              cases res <;> simp_all [readable, getProp]
            simp only [hs]
            exact raisesUncalled_request cb _ _ _ (raisesUncalled_throw cb .typeError)
  · intro err body res hans
    have hrun : getVolumeTypes r (.function cb) = .request typesRequest ::
        (if truthy err then [.call cb [err]]
         else
           match getProp body "volume_types" with
           | .error e => [.throw e]
           | .ok (.array items) => [.call cb [.null, .array (items.map newVolumeType), res]]
           | .ok _ => [.throw .typeError]) := by
      have hs := hans
      simp only [typesRequest] at hs
      simp only [getVolumeTypes, hs, invoke, typesRequest]
    rw [hrun]
    refine ⟨?_, ?_⟩
    · intro he
      rw [if_pos he]
      exact calledOnce_request cb _ _ (calledOnce_error cb err)
    · intro he
      have hne : ¬ truthy err = true := by simp [he]
      rw [if_neg hne]
      refine ⟨?_, ?_⟩
      · intro items hi
        rw [hi]
        exact calledOnce_request cb _ _ (calledOnce_result cb _ _)
      · intro hnot
        apply raisesUncalled_request
        cases hg : getProp body "volume_types" with
        | error e =>
          obtain ⟨ht, _⟩ := getProp_error body "volume_types" e hg
          subst ht
          exact raisesUncalled_throw cb .typeError
        | ok vt =>
          cases vt with
          | array items => exact absurd hg (hnot items)
          | _ => exact raisesUncalled_throw cb .typeError
  · intro volumetype
    obtain ⟨id, hid⟩ : ∃ id, (if instanceofVolumeType volumetype then getProp volumetype "id"
        else .ok volumetype) = .ok id := by
      by_cases hi : instanceofVolumeType volumetype = true
      · rw [if_pos hi]
        exact getProp_of_truthy volumetype "id"
          (by cases volumetype <;> simp_all [instanceofVolumeType, truthy])
      · rw [if_neg hi]
        exact ⟨volumetype, rfl⟩
    refine ⟨id, hid, ?_⟩
    intro err body res hans
    rw [getVolumeType_run r volumetype id (.function cb) hid, hans]
    refine ⟨?_, ?_⟩
    · intro he
      simp only [he, if_true, invoke]
      exact calledOnce_request cb _ _ (calledOnce_error cb err)
    · intro he
      have hne : ¬ truthy err = true := by simp [he]
      simp only [if_neg hne]
      refine ⟨?_, ?_⟩
      · intro hr
        obtain ⟨d, hd⟩ := getProp_of_readable body "volume_type" hr
        simp only [hd, invoke]
        exact calledOnce_request cb _ _ (calledOnce_result cb _ [])
      · intro hr
        have hs : getProp body "volume_type" = .error .typeError := by
          cases body <;> simp_all [readable, getProp]
        simp only [hs]
        exact raisesUncalled_request cb _ _ _ (raisesUncalled_throw cb .typeError)

/-- C9 (amended) at a `create` whose collaborators all succeed (one call), and at
a `getVolumeTypes` whose `volume_types` is a string (`TypeError`, no call). -/
theorem callback_exactly_once_witness :
    calledOnce 7 (create sampleAzure
      [.value (.object [("name", .string (utf16 "t1"))]), .function 7]) ∧
    raisesUncalled 7 .typeError
      (getVolumeTypes ⟨fun _ => (.null, .object [("volume_types", .string (utf16 "x"))], .null)⟩
        (.function 7)) := by
  constructor
  · have h := ((callback_exactly_once sampleAzure sampleRackspace 7).1
      (.value (.object [("name", .string (utf16 "t1"))]))).2
      (.object [("name", .string (utf16 "t1"))]) (.string (utf16 "t1")) rfl rfl rfl
    have h2 := (h.2 rfl).2.2 (utf16 "<d:TableName>\x7b\x7bname\x7d\x7d</d:TableName>") rfl rfl
    exact (h2.2 (.string (utf16 "<entry/>"))
      (.object [("statusCode", .number (utf16 "201"))]) rfl).1 (Or.inr rfl)
  · have h := (callback_exactly_once sampleAzure
      ⟨fun _ => (.null, .object [("volume_types", .string (utf16 "x"))], .null)⟩ 7).2.2.2.1
      .null (.object [("volume_types", .string (utf16 "x"))]) .null rfl
    exact (h.2 rfl).2 (fun items hi => nomatch hi)

end Pkgcloud
